/-
Verification of the LVGL watch application (src/src/main.c) against its
natural-language specification.

The C program is shallowly embedded: pure pixel arithmetic becomes Lean
functions on Nat, the SDL drawing calls of the flush callback become an
explicit trace of operations, the widget tree and timers become an explicit
application-state record, and the event loop becomes a step function over a
list of per-iteration event batches.  Machine integers are modelled as Nat
with explicit truncation (% 2^w) where the C code can overflow or truncate.
-/
import Mathlib

namespace LvglWatch

/-! ## Colors: RGB565 unpacking and the flush callback's channel expansion

`lv_color_t` with `LV_COLOR_DEPTH 16` is a packed 16-bit word with bit
fields blue:5 (bits 0-4), green:6 (bits 5-10), red:5 (bits 11-15).
`LV_COLOR_GET_R/G/B` read those fields (main.c lines 155-157). -/

/-- Red field of a packed RGB565 word: bits 11-15. -/
def LV_COLOR_GET_R (w : Nat) : Nat := w / 2048 % 32

/-- Green field of a packed RGB565 word: bits 5-10. -/
def LV_COLOR_GET_G (w : Nat) : Nat := w / 32 % 64

/-- Blue field of a packed RGB565 word: bits 0-4. -/
def LV_COLOR_GET_B (w : Nat) : Nat := w % 32

/-- Pack native channel values into an RGB565 word; bit-field assignment
truncates each channel to its width, hence the `%`. -/
def rgb565 (r g b : Nat) : Nat := r % 32 * 2048 + g % 64 * 32 + b % 32

/-- The 8-bit channels that `sdl_display_flush` hands to
`SDL_SetRenderDrawColor` for one packed pixel `c` (main.c lines 154-158):
red and blue shifted left 3 bits, green shifted left 2 bits. -/
def flushChannels (c : Nat) : Nat × Nat × Nat :=
  (LV_COLOR_GET_R c <<< 3, LV_COLOR_GET_G c <<< 2, LV_COLOR_GET_B c <<< 3)

theorem rgb565_getR (r g b : Nat) (hr : r < 32) :
    LV_COLOR_GET_R (rgb565 r g b) = r := by
  unfold LV_COLOR_GET_R rgb565
  omega

theorem rgb565_getG (r g b : Nat) (hg : g < 64) :
    LV_COLOR_GET_G (rgb565 r g b) = g := by
  unfold LV_COLOR_GET_G rgb565
  omega

theorem rgb565_getB (r g b : Nat) (hb : b < 32) :
    LV_COLOR_GET_B (rgb565 r g b) = b := by
  unfold LV_COLOR_GET_B rgb565
  omega

/-- Claim C3: Pixel channel expansion: for every pixel in 5-6-5 packing handed
to the flush callback, the emitted 8-bit channels are exactly red shifted
left 3 bits, green shifted left 2 bits, blue shifted left 3 bits; in
particular (0,0,0) expands to (0,0,0) and (31,63,31) to (248,252,248). -/
theorem C3_pixel_channel_expansion (r g b : Nat)
    (hr : r < 32) (hg : g < 64) (hb : b < 32) :
    flushChannels (rgb565 r g b) = (r <<< 3, g <<< 2, b <<< 3) ∧
    flushChannels (rgb565 0 0 0) = (0, 0, 0) ∧
    flushChannels (rgb565 31 63 31) = (248, 252, 248) := by
  refine ⟨?_, by decide, by decide⟩
  unfold flushChannels
  rw [rgb565_getR r g b hr, rgb565_getG r g b hg, rgb565_getB r g b hb]

theorem C3_pixel_channel_expansion_witness :
    (17 < 32 ∧ 42 < 64 ∧ 9 < 32) ∧
    (flushChannels (rgb565 17 42 9) = (17 <<< 3, 42 <<< 2, 9 <<< 3) ∧
     flushChannels (rgb565 0 0 0) = (0, 0, 0) ∧
     flushChannels (rgb565 31 63 31) = (248, 252, 248)) :=
  ⟨by decide,
   C3_pixel_channel_expansion 17 42 9 (by decide) (by decide) (by decide)⟩

/-! ## The display-flush callback as a trace of SDL operations

`sdl_display_flush` (main.c lines 146-164) loops `y` from `area->y1` to
`area->y2` and `x` from `area->x1` to `area->x2`, reads the source pixel at
row-major index `(y - y1) * (x2 - x1 + 1) + (x - x1)`, issues
`SDL_SetRenderDrawColor` with the expanded channels and alpha 0xFF followed
by `SDL_RenderDrawPoint(x, y)`, and finally calls `lv_disp_flush_ready`. -/

/-- `lv_area_t`: a rectangle with signed coordinates. -/
structure LvArea where
  x1 : Int
  y1 : Int
  x2 : Int
  y2 : Int

/-- The SDL calls the flush callback can issue, plus the completion signal
`lv_disp_flush_ready` back to LVGL. -/
inductive SDLOp where
  | setRenderDrawColor : Nat → Nat → Nat → Nat → SDLOp
  | renderDrawPoint : Int → Int → SDLOp
  | flushReady : SDLOp
  deriving DecidableEq

/-- The full argument tuple (r, g, b, a) the flush callback passes to
`SDL_SetRenderDrawColor` for a packed pixel `c`. -/
def flushColor (c : Nat) : Nat × Nat × Nat × Nat :=
  (LV_COLOR_GET_R c <<< 3, LV_COLOR_GET_G c <<< 2, LV_COLOR_GET_B c <<< 3, 255)

/-- Body of the inner pixel loop of `sdl_display_flush` at coordinate
(x, y): compute the row-major index, read the pixel, set the draw color,
draw the point (main.c lines 151-159). -/
def flushBody (area : LvArea) (color_p : Nat → Nat) (x y : Int) : List SDLOp :=
  let idx : Int := (y - area.y1) * (area.x2 - area.x1 + 1) + (x - area.x1)
  let c := color_p idx.toNat
  [SDLOp.setRenderDrawColor (LV_COLOR_GET_R c <<< 3) (LV_COLOR_GET_G c <<< 2)
     (LV_COLOR_GET_B c <<< 3) 255,
   SDLOp.renderDrawPoint x y]

/-- The operation trace of one call to `sdl_display_flush`: the nested
pixel loops followed by the single `lv_disp_flush_ready`. -/
def sdl_display_flush (area : LvArea) (color_p : Nat → Nat) : List SDLOp :=
  ((List.range (area.y2 - area.y1 + 1).toNat).flatMap fun dy =>
    (List.range (area.x2 - area.x1 + 1).toNat).flatMap fun dx =>
      flushBody area color_p (area.x1 + dx) (area.y1 + dy)) ++ [SDLOp.flushReady]

/-- A pixel-write event: the coordinate drawn and the (r, g, b, a) color it
was drawn with. -/
abbrev PixelWrite := (Int × Int) × (Nat × Nat × Nat × Nat)

/-- Extract from an operation trace the pixel writes: each
`setRenderDrawColor` immediately followed by a `renderDrawPoint`. -/
def pixelWrites : List SDLOp → List PixelWrite
  | [] => []
  | SDLOp.setRenderDrawColor r g b a :: SDLOp.renderDrawPoint x y :: rest =>
      ((x, y), (r, g, b, a)) :: pixelWrites rest
  | _ :: rest => pixelWrites rest

/-- The two SDL calls that realize one pixel write. -/
def blockOf (e : PixelWrite) : List SDLOp :=
  [SDLOp.setRenderDrawColor e.2.1 e.2.2.1 e.2.2.2.1 e.2.2.2.2,
   SDLOp.renderDrawPoint e.1.1 e.1.2]

theorem pixelWrites_flatMap_blockOf (l : List PixelWrite) (tail : List SDLOp) :
    pixelWrites (l.flatMap blockOf ++ tail) = l ++ pixelWrites tail := by
  induction l with
  | nil => simp
  | cons e l ih =>
      obtain ⟨⟨x, y⟩, r, g, b, a⟩ := e
      have hsplit : (((x, y), (r, g, b, a)) :: l).flatMap blockOf ++ tail
          = SDLOp.setRenderDrawColor r g b a :: SDLOp.renderDrawPoint x y
            :: (l.flatMap blockOf ++ tail) := by
        simp [blockOf]
      rw [hsplit]
      show ((x, y), (r, g, b, a)) :: pixelWrites (l.flatMap blockOf ++ tail) = _
      rw [ih]
      rfl

theorem toNat_mul_add (c : Int) (dy dx : Nat) (hc : 0 ≤ c) :
    ((dy : Int) * c + dx).toNat = dy * c.toNat + dx := by
  obtain ⟨C, rfl⟩ := Int.eq_ofNat_of_zero_le hc
  simp only [Int.toNat_natCast]
  rw [← Nat.cast_mul, ← Nat.cast_add, Int.toNat_natCast]

theorem flushBody_eq_blockOf (area : LvArea) (cp : Nat → Nat) (dx dy : Nat)
    (hx : area.x1 ≤ area.x2) :
    flushBody area cp (area.x1 + dx) (area.y1 + dy) =
      blockOf ((area.x1 + dx, area.y1 + dy),
        flushColor (cp (dy * (area.x2 - area.x1 + 1).toNat + dx))) := by
  have hidx : ((area.y1 + dy - area.y1) * (area.x2 - area.x1 + 1)
      + (area.x1 + dx - area.x1)).toNat
      = dy * (area.x2 - area.x1 + 1).toNat + dx := by
    have h1 : area.y1 + (dy : Int) - area.y1 = (dy : Int) := by ring
    have h2 : area.x1 + (dx : Int) - area.x1 = (dx : Int) := by ring
    rw [h1, h2]
    exact toNat_mul_add _ dy dx (by omega)
  simp only [flushBody, blockOf, flushColor, hidx]

/-- The row-major list of pixel writes the flush of `area` from buffer `cp`
performs, as a specification value to compare the trace against. -/
def flushEntries (area : LvArea) (cp : Nat → Nat) : List PixelWrite :=
  (List.range (area.y2 - area.y1 + 1).toNat).flatMap fun (dy : Nat) =>
    (List.range (area.x2 - area.x1 + 1).toNat).map fun (dx : Nat) =>
      ((area.x1 + (dx : Int), area.y1 + (dy : Int)),
       flushColor (cp (dy * (area.x2 - area.x1 + 1).toNat + dx)))

/-- Closed form of the flush trace: the row-major list of pixel-write
blocks followed by the completion signal. -/
theorem sdl_display_flush_closed (area : LvArea) (cp : Nat → Nat)
    (hx : area.x1 ≤ area.x2) :
    sdl_display_flush area cp =
      (flushEntries area cp).flatMap blockOf ++ [SDLOp.flushReady] := by
  unfold sdl_display_flush flushEntries
  congr 1
  rw [List.flatMap_assoc]
  refine List.flatMap_congr ?_
  intro dy _
  rw [List.flatMap_map]
  refine List.flatMap_congr ?_
  intro dx _
  exact flushBody_eq_blockOf area cp dx dy hx

theorem toNat_rowmajor (c u v : Int) (hc : 0 ≤ c) (hu : 0 ≤ u) (hv : 0 ≤ v) :
    (u * c + v).toNat = u.toNat * c.toNat + v.toNat := by
  obtain ⟨U, rfl⟩ := Int.eq_ofNat_of_zero_le hu
  obtain ⟨V, rfl⟩ := Int.eq_ofNat_of_zero_le hv
  simp only [Int.toNat_natCast]
  exact toNat_mul_add c U V hc

theorem mem_flushEntries (area : LvArea) (cp : Nat → Nat) (x y : Int)
    (hx1 : area.x1 ≤ x) (hx2 : x ≤ area.x2) (hy1 : area.y1 ≤ y) (hy2 : y ≤ area.y2) :
    ((x, y), flushColor (cp ((y - area.y1) * (area.x2 - area.x1 + 1)
        + (x - area.x1)).toNat)) ∈ flushEntries area cp := by
  unfold flushEntries
  rw [List.mem_flatMap]
  refine ⟨(y - area.y1).toNat, ?_, ?_⟩
  · rw [List.mem_range]; omega
  · rw [List.mem_map]
    refine ⟨(x - area.x1).toNat, ?_, ?_⟩
    · rw [List.mem_range]; omega
    · have h1 : area.x1 + (((x - area.x1).toNat : Nat) : Int) = x := by omega
      have h2 : area.y1 + (((y - area.y1).toNat : Nat) : Int) = y := by omega
      have h3 : (y - area.y1).toNat * (area.x2 - area.x1 + 1).toNat + (x - area.x1).toNat
          = ((y - area.y1) * (area.x2 - area.x1 + 1) + (x - area.x1)).toNat :=
        (toNat_rowmajor _ _ _ (by omega) (by omega) (by omega)).symm
      rw [h1, h2, h3]

theorem flushEntries_map_fst (area : LvArea) (cp : Nat → Nat) :
    (flushEntries area cp).map Prod.fst =
      (List.range (area.y2 - area.y1 + 1).toNat).flatMap fun (dy : Nat) =>
        (List.range (area.x2 - area.x1 + 1).toNat).map fun (dx : Nat) =>
          (area.x1 + (dx : Int), area.y1 + (dy : Int)) := by
  unfold flushEntries
  rw [List.map_flatMap]
  refine List.flatMap_congr ?_
  intro dy _
  rw [List.map_map]
  rfl

theorem flushEntries_fst_nodup (area : LvArea) (cp : Nat → Nat) :
    ((flushEntries area cp).map Prod.fst).Nodup := by
  rw [flushEntries_map_fst, List.nodup_flatMap]
  constructor
  · intro dy _
    refine List.Nodup.map ?_ (List.nodup_range _)
    intro a b hab
    simp only [Prod.mk.injEq] at hab
    omega
  · refine List.Pairwise.imp ?_ (List.pairwise_lt_range _)
    intro dy dy' hlt p hp hp'
    simp only [List.mem_map] at hp hp'
    obtain ⟨a, _, ha⟩ := hp
    obtain ⟨b, _, hb⟩ := hp'
    rw [← ha] at hb
    simp only [Prod.mk.injEq] at hb
    omega

theorem flushReady_not_mem_blocks (area : LvArea) (cp : Nat → Nat) :
    SDLOp.flushReady ∉ (flushEntries area cp).flatMap blockOf := by
  intro h
  rw [List.mem_flatMap] at h
  obtain ⟨e, _, he⟩ := h
  simp [blockOf] at he

/-- Claim C4: Flush coverage and completion order: for every nonempty area and
source buffer, the flush callback writes each pixel of the area exactly
once at its absolute coordinate, with the color read at row-major index
(y − y1)·(x2 − x1 + 1) + (x − x1); the completion signal occurs exactly
once per call and is the last operation of the trace, so it comes only
after the entire region has been written. -/
theorem C4_flush_coverage (area : LvArea) (cp : Nat → Nat)
    (hx : area.x1 ≤ area.x2) (hy : area.y1 ≤ area.y2) :
    ((pixelWrites (sdl_display_flush area cp)).map Prod.fst).Nodup ∧
    (∀ x y : Int, area.x1 ≤ x → x ≤ area.x2 → area.y1 ≤ y → y ≤ area.y2 →
      ((x, y), flushColor (cp ((y - area.y1) * (area.x2 - area.x1 + 1)
          + (x - area.x1)).toNat)) ∈ pixelWrites (sdl_display_flush area cp)) ∧
    (sdl_display_flush area cp).count SDLOp.flushReady = 1 ∧
    (sdl_display_flush area cp).getLast? = some SDLOp.flushReady := by
  have hclosed := sdl_display_flush_closed area cp hx
  have hpw : pixelWrites (sdl_display_flush area cp) = flushEntries area cp := by
    rw [hclosed, pixelWrites_flatMap_blockOf]
    show flushEntries area cp ++ pixelWrites [SDLOp.flushReady] = _
    show flushEntries area cp ++ [] = _
    rw [List.append_nil]
  refine ⟨?_, ?_, ?_, ?_⟩
  · rw [hpw]
    exact flushEntries_fst_nodup area cp
  · intro x y hx1 hx2 hy1 hy2
    rw [hpw]
    exact mem_flushEntries area cp x y hx1 hx2 hy1 hy2
  · rw [hclosed, List.count_append]
    rw [List.count_eq_zero.mpr (flushReady_not_mem_blocks area cp)]
    rfl
  · rw [hclosed]
    exact List.getLast?_concat _

theorem C4_flush_coverage_witness :
    ((0 : Int) ≤ 1 ∧ (0 : Int) ≤ 1) ∧
    (((pixelWrites (sdl_display_flush ⟨0, 0, 1, 1⟩ (fun n => n))).map
        Prod.fst).Nodup ∧
    (∀ x y : Int, (0 : Int) ≤ x → x ≤ 1 → (0 : Int) ≤ y → y ≤ 1 →
      ((x, y), flushColor ((fun n => n) ((y - 0) * (1 - 0 + 1) + (x - 0)).toNat))
        ∈ pixelWrites (sdl_display_flush ⟨0, 0, 1, 1⟩ (fun n => n))) ∧
    (sdl_display_flush ⟨0, 0, 1, 1⟩ (fun n => n)).count SDLOp.flushReady = 1 ∧
    (sdl_display_flush ⟨0, 0, 1, 1⟩ (fun n => n)).getLast? = some SDLOp.flushReady) :=
  ⟨⟨by decide, by decide⟩,
   C4_flush_coverage ⟨0, 0, 1, 1⟩ (fun n => n) (by decide) (by decide)⟩

/-! ## The time formatter

`update_time_display` (main.c lines 123-141) formats the current local
time with `strftime` patterns `"%H:%M:%S"` and `"%a, %b %d %Y"`.  The
relevant `strftime` conversions (C standard / glibc): `%H`, `%M`, `%S` are
zero-padded two-digit 24-hour clock fields, `%a` and `%b` are the
abbreviated English weekday and month names, `%d` is the zero-padded
two-digit day of month, and `%Y` is the year (`tm_year + 1900`) in
decimal. -/

/-- The fields of `struct tm` the formatter reads.  `tm_mon` counts from 0
(January), `tm_wday` from 0 (Sunday), and `tm_year` counts years since
1900, as in C. -/
structure Tm where
  tm_sec : Nat
  tm_min : Nat
  tm_hour : Nat
  tm_mday : Nat
  tm_mon : Nat
  tm_year : Nat
  tm_wday : Nat
  deriving DecidableEq

/-- Zero-padded two-digit decimal rendering, as produced by the `%H`,
`%M`, `%S` and `%d` conversions for in-range values. -/
def pad2 (n : Nat) : String := if n < 10 then "0" ++ toString n else toString n

/-- Abbreviated English weekday names of `%a`, indexed by `tm_wday`. -/
def wdayName : Nat → String
  | 0 => "Sun" | 1 => "Mon" | 2 => "Tue" | 3 => "Wed"
  | 4 => "Thu" | 5 => "Fri" | _ => "Sat"

/-- Abbreviated English month names of `%b`, indexed by `tm_mon`. -/
def monName : Nat → String
  | 0 => "Jan" | 1 => "Feb" | 2 => "Mar" | 3 => "Apr"
  | 4 => "May" | 5 => "Jun" | 6 => "Jul" | 7 => "Aug"
  | 8 => "Sep" | 9 => "Oct" | 10 => "Nov" | _ => "Dec"

/-- Decimal digits of `n`, most significant first, prepended to `tail`;
`fuel` bounds the recursion depth (any `fuel > n` is exact). -/
def natToDecCore : Nat → Nat → List Char → List Char
  | 0, _, tail => tail
  | fuel + 1, n, tail =>
      if n < 10 then Nat.digitChar (n % 10) :: tail
      else natToDecCore fuel (n / 10) (Nat.digitChar (n % 10) :: tail)

/-- Decimal rendering of a natural number, as produced by `%Y`. -/
def natToDec (n : Nat) : String := ⟨natToDecCore (n + 1) n []⟩

/-- The time string written into the Time label: `strftime "%H:%M:%S"`. -/
def strftime_HMS (t : Tm) : String :=
  pad2 t.tm_hour ++ ":" ++ pad2 t.tm_min ++ ":" ++ pad2 t.tm_sec

/-- The date string written into the Date label:
`strftime "%a, %b %d %Y"`. -/
def strftime_date (t : Tm) : String :=
  wdayName t.tm_wday ++ ", " ++ monName t.tm_mon ++ " " ++ pad2 t.tm_mday
    ++ " " ++ natToDec (t.tm_year + 1900)

/-! ### Parsers for the two format strings -/

/-- Value of a decimal digit character. -/
def digitVal (c : Char) : Option Nat :=
  if c.isDigit then some (c.toNat - 48) else none

/-- Parse exactly two digit characters into a number, returning the rest
of the input. -/
def parseFix2 : List Char → Option (Nat × List Char)
  | c1 :: c2 :: rest =>
      match digitVal c1, digitVal c2 with
      | some d1, some d2 => some (d1 * 10 + d2, rest)
      | _, _ => none
  | _ => none

/-- Parse a nonempty all-digit character list as a decimal number. -/
def parseDec (cs : List Char) : Option Nat :=
  if cs ≠ [] ∧ cs.all Char.isDigit then
    some (cs.foldl (fun a c => a * 10 + (c.toNat - 48)) 0)
  else none

/-- Parse a three-character name against a list of names, returning its
index and the rest of the input. -/
def parse3Name (names : List String) (cs : List Char) : Option (Nat × List Char) :=
  match cs with
  | a :: b :: c :: rest =>
      match names.findIdx? (fun s => s.data = [a, b, c]) with
      | some i => some (i, rest)
      | none => none
  | _ => none

/-- The seven `%a` names in `tm_wday` order. -/
def wdayNames : List String := ["Sun", "Mon", "Tue", "Wed", "Thu", "Fri", "Sat"]

/-- The twelve `%b` names in `tm_mon` order. -/
def monNames : List String :=
  ["Jan", "Feb", "Mar", "Apr", "May", "Jun", "Jul", "Aug", "Sep", "Oct", "Nov", "Dec"]

/-- Parse `"HH:MM:SS"`, recovering the hour, minute and second fields. -/
def parse_HMS (s : String) : Option (Nat × Nat × Nat) :=
  match parseFix2 s.data with
  | some (h, c1 :: r1) =>
      if c1 = ':' then
        match parseFix2 r1 with
        | some (m, c2 :: r2) =>
            if c2 = ':' then
              match parseFix2 r2 with
              | some (sec, []) => some (h, m, sec)
              | _ => none
            else none
        | _ => none
      else none
  | _ => none

/-- Parse `"Www, Mmm DD YYYY"`, recovering weekday, month, day and year. -/
def parse_date (s : String) : Option (Nat × Nat × Nat × Nat) :=
  match parse3Name wdayNames s.data with
  | some (w, c1 :: c2 :: r1) =>
      if c1 = ',' ∧ c2 = ' ' then
        match parse3Name monNames r1 with
        | some (m, c3 :: r2) =>
            if c3 = ' ' then
              match parseFix2 r2 with
              | some (d, c4 :: r3) =>
                  if c4 = ' ' then
                    match parseDec r3 with
                    | some y => some (w, m, d, y)
                    | none => none
                  else none
              | _ => none
            else none
        | _ => none
      else none
  | _ => none

/-! ### Round-trip lemmas for the formatter -/

theorem pad2_data : ∀ n < 100,
    (pad2 n).data = [Nat.digitChar (n / 10), Nat.digitChar (n % 10)] := by
  decide

theorem digitVal_digitChar : ∀ k < 10, digitVal (Nat.digitChar k) = some k := by
  decide

theorem digitChar_isDigit : ∀ k < 10, (Nat.digitChar k).isDigit = true := by
  decide

theorem parseFix2_pad2 (n : Nat) (h : n < 100) (rest : List Char) :
    parseFix2 ((pad2 n).data ++ rest) = some (n, rest) := by
  rw [pad2_data n h]
  simp only [List.cons_append, List.nil_append, parseFix2,
    digitVal_digitChar (n / 10) (by omega), digitVal_digitChar (n % 10) (by omega)]
  have hsum : n / 10 * 10 + n % 10 = n := by omega
  rw [hsum]

theorem natToDecCore_all_digits : ∀ fuel n tail, tail.all Char.isDigit = true →
    (natToDecCore fuel n tail).all Char.isDigit = true := by
  intro fuel
  induction fuel with
  | zero => intro n tail h; exact h
  | succ fuel ih =>
      intro n tail h
      rw [natToDecCore]
      by_cases hn : n < 10
      · rw [if_pos hn]
        simp [digitChar_isDigit (n % 10) (by omega), h]
      · rw [if_neg hn]
        exact ih (n / 10) _ (by simp [digitChar_isDigit (n % 10) (by omega), h])

theorem natToDecCore_eq_nil : ∀ fuel n tail,
    natToDecCore fuel n tail = [] → tail = [] := by
  intro fuel
  induction fuel with
  | zero => intro n tail h; exact h
  | succ fuel ih =>
      intro n tail h
      rw [natToDecCore] at h
      by_cases hn : n < 10
      · rw [if_pos hn] at h
        exact absurd h (List.cons_ne_nil _ _)
      · rw [if_neg hn] at h
        exact absurd (ih _ _ h) (List.cons_ne_nil _ _)

/-- Fuelled decimal value accumulator used to relate `natToDecCore` to the
left fold of `parseDec`. -/
def decValCore : Nat → Nat → Nat → Nat
  | 0, _, a => a
  | fuel + 1, n, a =>
      if n < 10 then a * 10 + n else decValCore fuel (n / 10) a * 10 + n % 10

theorem digitChar_toNat : ∀ k < 10, (Nat.digitChar k).toNat - 48 = k := by
  decide

theorem foldl_natToDecCore : ∀ fuel n a tail,
    List.foldl (fun a c => a * 10 + (c.toNat - 48)) a (natToDecCore fuel n tail)
      = List.foldl (fun a c => a * 10 + (c.toNat - 48)) (decValCore fuel n a) tail := by
  intro fuel
  induction fuel with
  | zero => intro n a tail; rfl
  | succ fuel ih =>
      intro n a tail
      rw [natToDecCore, decValCore]
      by_cases hn : n < 10
      · rw [if_pos hn, if_pos hn]
        simp only [List.foldl_cons, digitChar_toNat (n % 10) (by omega)]
        have : n % 10 = n := by omega
        rw [this]
      · rw [if_neg hn, if_neg hn, ih]
        simp only [List.foldl_cons, digitChar_toNat (n % 10) (by omega)]

theorem decValCore_zero : ∀ fuel n, n < fuel → decValCore fuel n 0 = n := by
  intro fuel
  induction fuel with
  | zero => omega
  | succ fuel ih =>
      intro n hn
      rw [decValCore]
      by_cases h : n < 10
      · rw [if_pos h]; omega
      · rw [if_neg h, ih (n / 10) (by omega)]; omega

theorem parseDec_natToDec (n : Nat) : parseDec ((natToDec n).data) = some n := by
  have hdata : (natToDec n).data = natToDecCore (n + 1) n [] := rfl
  have hne : (natToDec n).data ≠ [] := by
    rw [hdata]
    intro h
    exact absurd (natToDecCore_eq_nil (n + 1) n [] h) (by
      intro _
      have : natToDecCore (n + 1) n [] = [] := h
      rw [natToDecCore] at this
      by_cases hn : n < 10
      · rw [if_pos hn] at this
        exact List.cons_ne_nil _ _ this
      · rw [if_neg hn] at this
        exact List.cons_ne_nil _ _ (natToDecCore_eq_nil _ _ _ this))
  have hdig : ((natToDec n).data).all Char.isDigit = true := by
    rw [hdata]
    exact natToDecCore_all_digits (n + 1) n [] rfl
  unfold parseDec
  rw [if_pos ⟨hne, hdig⟩]
  rw [hdata, foldl_natToDecCore (n + 1) n 0 []]
  show some (decValCore (n + 1) n 0) = some n
  rw [decValCore_zero (n + 1) n (by omega)]

theorem parse3Name_wday (w : Nat) (hw : w < 7) (rest : List Char) :
    parse3Name wdayNames ((wdayName w).data ++ rest) = some (w, rest) := by
  interval_cases w <;> rfl

theorem parse3Name_mon (m : Nat) (hm : m < 12) (rest : List Char) :
    parse3Name monNames ((monName m).data ++ rest) = some (m, rest) := by
  interval_cases m <;> rfl

theorem parse_HMS_round (t : Tm)
    (hh : t.tm_hour < 24) (hm : t.tm_min < 60) (hs : t.tm_sec < 60) :
    parse_HMS (strftime_HMS t) = some (t.tm_hour, t.tm_min, t.tm_sec) := by
  have hcolon : (":" : String).data = [':'] := rfl
  have hdata : (strftime_HMS t).data
      = (pad2 t.tm_hour).data
        ++ (':' :: ((pad2 t.tm_min).data ++ (':' :: (pad2 t.tm_sec).data))) := by
    unfold strftime_HMS
    simp [String.data_append, hcolon, List.append_assoc]
  have e3 : parseFix2 ((pad2 t.tm_sec).data) = some (t.tm_sec, []) := by
    have := parseFix2_pad2 t.tm_sec (by omega) []
    rwa [List.append_nil] at this
  unfold parse_HMS
  rw [hdata, parseFix2_pad2 t.tm_hour (by omega)]
  simp only [if_pos]
  rw [parseFix2_pad2 t.tm_min (by omega)]
  simp only [if_pos]
  rw [e3]

theorem parse_date_round (t : Tm)
    (hw : t.tm_wday < 7) (hmo : t.tm_mon < 12)
    (hd1 : 1 ≤ t.tm_mday) (hd2 : t.tm_mday ≤ 31) :
    parse_date (strftime_date t)
      = some (t.tm_wday, t.tm_mon, t.tm_mday, t.tm_year + 1900) := by
  have hcomma : (", " : String).data = [',', ' '] := rfl
  have hspace : (" " : String).data = [' '] := rfl
  have hdata : (strftime_date t).data
      = (wdayName t.tm_wday).data
        ++ (',' :: ' ' :: ((monName t.tm_mon).data
          ++ (' ' :: ((pad2 t.tm_mday).data
            ++ (' ' :: (natToDec (t.tm_year + 1900)).data))))) := by
    unfold strftime_date
    simp [String.data_append, hcomma, hspace, List.append_assoc]
  unfold parse_date
  rw [hdata, parse3Name_wday t.tm_wday hw]
  simp only [if_pos]
  rw [parse3Name_mon t.tm_mon hmo]
  simp only [if_pos]
  rw [parseFix2_pad2 t.tm_mday (by omega)]
  simp only [if_pos]
  rw [parseDec_natToDec (t.tm_year + 1900)]
  simp

/-- Claim C6: Time-format round trip: the formatter renders the instant as
a zero-padded 24-hour `HH:MM:SS` clock string and an
abbreviated-weekday, abbreviated-month, zero-padded-day, year date
string, and parsing those strings with the same format recovers the
hour/minute/second and weekday/month/day/year components of the instant. -/
theorem C6_time_format_round_trip (t : Tm)
    (hh : t.tm_hour < 24) (hm : t.tm_min < 60) (hs : t.tm_sec < 60)
    (hw : t.tm_wday < 7) (hmo : t.tm_mon < 12)
    (hd1 : 1 ≤ t.tm_mday) (hd2 : t.tm_mday ≤ 31) :
    parse_HMS (strftime_HMS t) = some (t.tm_hour, t.tm_min, t.tm_sec) ∧
    parse_date (strftime_date t)
      = some (t.tm_wday, t.tm_mon, t.tm_mday, t.tm_year + 1900) :=
  ⟨parse_HMS_round t hh hm hs, parse_date_round t hw hmo hd1 hd2⟩

theorem C6_time_format_round_trip_witness :
    (12 < 24 ∧ 34 < 60 ∧ 56 < 60 ∧ 6 < 7 ∧ 9 < 12 ∧ 1 ≤ 11 ∧ 11 ≤ 31) ∧
    (parse_HMS (strftime_HMS ⟨56, 34, 12, 11, 9, 125, 6⟩) = some (12, 34, 56) ∧
     parse_date (strftime_date ⟨56, 34, 12, 11, 9, 125, 6⟩)
       = some (6, 9, 11, 125 + 1900)) :=
  ⟨by decide,
   C6_time_format_round_trip ⟨56, 34, 12, 11, 9, 125, 6⟩
     (by decide) (by decide) (by decide) (by decide) (by decide)
     (by decide) (by decide)⟩

/-! ## Widget tree and application state

The screens, labels and timers main.c builds, and the module-level handles
(main.c lines 22-27) through which the timer callbacks reach them.  A
`none` models a NULL handle.  LVGL object semantics used here (the hidden
flag set/cleared by `lv_obj_add_flag`/`lv_obj_clear_flag`, label text
overwritten by `lv_label_set_text`, timers carrying a period and repeat
count) are modelled from the spec, since the LVGL sources of this
repository are not under src/. -/

/-- A screen container with the properties main.c sets (lines 44-49 and
69-75). -/
structure Screen where
  width : Int
  height : Int
  bgColor : Nat
  borderWidth : Nat
  scrollable : Bool
  hidden : Bool
  deriving DecidableEq

/-- A label with the properties main.c sets. -/
structure Label where
  text : String
  color : Nat
  font : Nat
  ofsX : Int
  ofsY : Int
  deriving DecidableEq

/-- The `lv_timer_t` configuration fields main.c sets. -/
structure LvTimer where
  period : Nat
  repeatCount : Int
  deriving DecidableEq

/-- Modelled from the spec: `lv_timer_create` (LVGL, not under src/)
creates a timer with the given period and the default infinite repeat
count (−1). -/
def lv_timer_create (period : Nat) : LvTimer :=
  { period := period, repeatCount := -1 }

/-- Modelled from the spec: `lv_timer_set_repeat_count` (LVGL, not under
src/) overwrites the repeat count. -/
def lv_timer_set_repeat_count (t : LvTimer) (n : Int) : LvTimer :=
  { t with repeatCount := n }

/-- `LV_COLOR_MAKE` at 16-bit depth: 8-bit channels truncated to 5-6-5. -/
def lv_color_make (r g b : Nat) : Nat := rgb565 (r % 256 / 8) (g % 256 / 4) (b % 256 / 8)

/-- Full white, `lv_color_white()`. -/
def lv_color_white : Nat := lv_color_make 255 255 255

/-- Full black, `lv_color_black()`. -/
def lv_color_black : Nat := lv_color_make 0 0 0

/-- The module-level UI handles of main.c (lines 22-27). -/
structure AppState where
  loading_screen : Option Screen
  welcome_label : Option Label
  time_screen : Option Screen
  time_label : Option Label
  date_label : Option Label
  loading_timer : Option LvTimer
  clock_timer : Option LvTimer
  deriving DecidableEq

/-- All handles start out NULL (main.c lines 22-27). -/
def initState : AppState :=
  { loading_screen := none, welcome_label := none, time_screen := none,
    time_label := none, date_label := none, loading_timer := none,
    clock_timer := none }

/-- `create_loading_screen` (main.c lines 41-61): visible black screen,
centered "Welcome" label, splash timer with period 4000 ms and repeat
count set to 1. -/
def create_loading_screen (st : AppState) : AppState :=
  { st with
    loading_screen := some
      { width := 172, height := 320, bgColor := lv_color_black,
        borderWidth := 0, scrollable := false, hidden := false },
    welcome_label := some
      { text := "Welcome", color := lv_color_white, font := 24,
        ofsX := 0, ofsY := 0 },
    loading_timer := some (lv_timer_set_repeat_count (lv_timer_create 4000) 1) }

/-- `update_time_display` (main.c lines 123-141): format the current local
time and overwrite the Time and Date label texts in place.  Dereferences
the `time_label` and `date_label` handles. -/
def update_time_display (now : Tm) (st : AppState) : Option AppState := do
  let tl ← st.time_label
  let dl ← st.date_label
  pure { st with
    time_label := some { tl with text := strftime_HMS now },
    date_label := some { dl with text := strftime_date now } }

/-- `create_time_screen` (main.c lines 66-96): hidden black screen, Time
and Date labels, one eager `update_time_display`, then the 1000 ms tick
timer with the default (infinite) repeat count. -/
def create_time_screen (now : Tm) (st : AppState) : Option AppState := do
  let st1 := { st with
    time_screen := some
      { width := 172, height := 320, bgColor := lv_color_black,
        borderWidth := 0, scrollable := false, hidden := true },
    time_label := some
      { text := "00:00:00", color := lv_color_white, font := 28,
        ofsX := 0, ofsY := -20 },
    date_label := some
      { text := "", color := lv_color_make 180 180 180, font := 14,
        ofsX := 0, ofsY := 30 } }
  let st2 ← update_time_display now st1
  pure { st2 with clock_timer := some (lv_timer_create 1000) }

/-- `loading_timer_cb` (main.c lines 101-110): hide the loading screen and
show the time screen, both within the one callback invocation.
Dereferences the `loading_screen` and `time_screen` handles. -/
def loading_timer_cb (st : AppState) : Option AppState := do
  let ls ← st.loading_screen
  let ts ← st.time_screen
  pure { st with
    loading_screen := some { ls with hidden := true },
    time_screen := some { ts with hidden := false } }

/-- `clock_update_cb` (main.c lines 115-118). -/
def clock_update_cb (now : Tm) (st : AppState) : Option AppState :=
  update_time_display now st

/-- The application state after startup: `create_loading_screen` then
`create_time_screen` (main.c lines 252-255). -/
def startupState (now : Tm) : Option AppState :=
  create_time_screen now (create_loading_screen initState)

/-- A screen handle is visible when it is non-NULL and its hidden flag is
clear. -/
def screenVisible : Option Screen → Bool
  | some s => !s.hidden
  | none => false

/-- States observable between callback invocations: the startup state and
everything the two timer callbacks can produce from it.  Each callback is
one atomic transition, as in the single-threaded LVGL loop. -/
inductive Reachable : AppState → Prop where
  | init : ∀ now st, startupState now = some st → Reachable st
  | splash : ∀ st st', Reachable st → loading_timer_cb st = some st' → Reachable st'
  | tick : ∀ now st st', Reachable st → clock_update_cb now st = some st' → Reachable st'

/-- The state startup produces, written out field by field. -/
def startupRecord (now : Tm) : AppState :=
  { loading_screen := some
      { width := 172, height := 320, bgColor := lv_color_black,
        borderWidth := 0, scrollable := false, hidden := false },
    welcome_label := some
      { text := "Welcome", color := lv_color_white, font := 24,
        ofsX := 0, ofsY := 0 },
    time_screen := some
      { width := 172, height := 320, bgColor := lv_color_black,
        borderWidth := 0, scrollable := false, hidden := true },
    time_label := some
      { text := strftime_HMS now, color := lv_color_white, font := 28,
        ofsX := 0, ofsY := -20 },
    date_label := some
      { text := strftime_date now, color := lv_color_make 180 180 180,
        font := 14, ofsX := 0, ofsY := 30 },
    loading_timer := some { period := 4000, repeatCount := 1 },
    clock_timer := some { period := 1000, repeatCount := -1 } }

/-- Closed form of the startup state. -/
theorem startupState_eq (now : Tm) :
    startupState now = some (startupRecord now) := by
  rfl

/-- Inversion of the splash callback: it requires both screen handles and
flips exactly the two hidden flags. -/
theorem loading_timer_cb_eq (st st' : AppState)
    (h : loading_timer_cb st = some st') :
    ∃ ls ts, st.loading_screen = some ls ∧ st.time_screen = some ts ∧
      st' = { st with loading_screen := some { ls with hidden := true },
                      time_screen := some { ts with hidden := false } } := by
  cases hls : st.loading_screen with
  | none =>
      unfold loading_timer_cb at h
      rw [hls] at h
      exact absurd h (by simp)
  | some ls =>
      cases hts : st.time_screen with
      | none =>
          unfold loading_timer_cb at h
          rw [hls, hts] at h
          exact absurd h (by simp)
      | some ts =>
          unfold loading_timer_cb at h
          rw [hls, hts] at h
          simp at h
          exact ⟨ls, ts, rfl, rfl, h.symm⟩

/-- Inversion of the refresh: it requires both label handles and rewrites
exactly the two text fields. -/
theorem update_time_display_eq (now : Tm) (st st' : AppState)
    (h : update_time_display now st = some st') :
    ∃ tl dl, st.time_label = some tl ∧ st.date_label = some dl ∧
      st' = { st with time_label := some { tl with text := strftime_HMS now },
                      date_label := some { dl with text := strftime_date now } } := by
  cases htl : st.time_label with
  | none =>
      unfold update_time_display at h
      rw [htl] at h
      exact absurd h (by simp)
  | some tl =>
      cases hdl : st.date_label with
      | none =>
          unfold update_time_display at h
          rw [htl, hdl] at h
          exact absurd h (by simp)
      | some dl =>
          unfold update_time_display at h
          rw [htl, hdl] at h
          simp at h
          exact ⟨tl, dl, rfl, rfl, h.symm⟩

/-- Claim C1: Exclusive visibility: at startup the Loading Screen is
visible and the Clock Screen hidden; the splash callback hides the one and
shows the other within its single (atomic) invocation; at every observable
(reachable) state exactly one of the two screens is visible; and once the
Clock Screen is visible, every further callback keeps the Loading Screen
hidden and the Clock Screen visible. -/
theorem C1_exclusive_visibility :
    (∀ now st, startupState now = some st →
       screenVisible st.loading_screen = true ∧
       screenVisible st.time_screen = false) ∧
    (∀ st st', loading_timer_cb st = some st' →
       screenVisible st'.loading_screen = false ∧
       screenVisible st'.time_screen = true) ∧
    (∀ st, Reachable st →
       screenVisible st.loading_screen = !screenVisible st.time_screen) ∧
    (∀ st st', Reachable st → screenVisible st.time_screen = true →
       (loading_timer_cb st = some st' ∨
        ∃ now, clock_update_cb now st = some st') →
       screenVisible st'.loading_screen = false ∧
       screenVisible st'.time_screen = true) := by
  have hinit : ∀ now st, startupState now = some st →
      screenVisible st.loading_screen = true ∧
      screenVisible st.time_screen = false := by
    intro now st h
    have := Option.some.inj ((startupState_eq now).symm.trans h)
    subst this
    exact ⟨rfl, rfl⟩
  have hsplash : ∀ st st', loading_timer_cb st = some st' →
      screenVisible st'.loading_screen = false ∧
      screenVisible st'.time_screen = true := by
    intro st st' h
    obtain ⟨ls, ts, _, _, hst'⟩ := loading_timer_cb_eq st st' h
    subst hst'
    exact ⟨rfl, rfl⟩
  have hexcl : ∀ st, Reachable st →
      screenVisible st.loading_screen = !screenVisible st.time_screen := by
    intro st hr
    induction hr with
    | init now st h =>
        obtain ⟨h1, h2⟩ := hinit now st h
        rw [h1, h2]
        rfl
    | splash st st' _ hcb ih =>
        obtain ⟨h1, h2⟩ := hsplash st st' hcb
        rw [h1, h2]
        rfl
    | tick now st st' _ hcb ih =>
        obtain ⟨tl, dl, _, _, hst'⟩ := update_time_display_eq now st st' hcb
        subst hst'
        exact ih
  refine ⟨hinit, hsplash, hexcl, ?_⟩
  intro st st' hr hvis hstep
  rcases hstep with h | ⟨now, h⟩
  · exact hsplash st st' h
  · obtain ⟨tl, dl, _, _, hst'⟩ := update_time_display_eq now st st' h
    subst hst'
    refine ⟨?_, hvis⟩
    have := hexcl st hr
    rw [hvis] at this
    exact this

theorem C1_exclusive_visibility_witness :
    startupState ⟨7, 8, 9, 10, 3, 126, 4⟩
        = some (startupRecord ⟨7, 8, 9, 10, 3, 126, 4⟩) ∧
    (screenVisible (startupRecord ⟨7, 8, 9, 10, 3, 126, 4⟩).loading_screen = true ∧
     screenVisible (startupRecord ⟨7, 8, 9, 10, 3, 126, 4⟩).time_screen = false) :=
  ⟨by rfl,
   C1_exclusive_visibility.1 ⟨7, 8, 9, 10, 3, 126, 4⟩
     (startupRecord ⟨7, 8, 9, 10, 3, 126, 4⟩) (by rfl)⟩

/-- Claim C9: Frame property of the clock refresh: the refresh overwrites
exactly the Time and Date label texts; every other part of the state
(screens and their visibility, the Welcome label, label styles, both timer
configurations) is unchanged, and a second refresh with the same instant
reproduces the identical state, so in particular identical label text. -/
theorem C9_refresh_frame_effect (now : Tm) (st st' : AppState)
    (h : update_time_display now st = some st') :
    (∃ tl dl, st.time_label = some tl ∧ st.date_label = some dl ∧
       st'.time_label = some { tl with text := strftime_HMS now } ∧
       st'.date_label = some { dl with text := strftime_date now }) ∧
    st'.loading_screen = st.loading_screen ∧
    st'.welcome_label = st.welcome_label ∧
    st'.time_screen = st.time_screen ∧
    st'.loading_timer = st.loading_timer ∧
    st'.clock_timer = st.clock_timer ∧
    update_time_display now st' = some st' := by
  obtain ⟨tl, dl, htl, hdl, hst'⟩ := update_time_display_eq now st st' h
  subst hst'
  refine ⟨⟨tl, dl, htl, hdl, rfl, rfl⟩, rfl, rfl, rfl, rfl, rfl, ?_⟩
  unfold update_time_display
  rfl

theorem C9_refresh_frame_effect_witness :
    update_time_display ⟨1, 2, 3, 4, 5, 126, 6⟩
        (startupRecord ⟨1, 2, 3, 4, 5, 126, 6⟩)
      = some (startupRecord ⟨1, 2, 3, 4, 5, 126, 6⟩) ∧
    ((∃ tl dl,
        (startupRecord ⟨1, 2, 3, 4, 5, 126, 6⟩).time_label = some tl ∧
        (startupRecord ⟨1, 2, 3, 4, 5, 126, 6⟩).date_label = some dl ∧
        (startupRecord ⟨1, 2, 3, 4, 5, 126, 6⟩).time_label
          = some { tl with text := strftime_HMS ⟨1, 2, 3, 4, 5, 126, 6⟩ } ∧
        (startupRecord ⟨1, 2, 3, 4, 5, 126, 6⟩).date_label
          = some { dl with text := strftime_date ⟨1, 2, 3, 4, 5, 126, 6⟩ }) ∧
     (startupRecord ⟨1, 2, 3, 4, 5, 126, 6⟩).loading_screen
       = (startupRecord ⟨1, 2, 3, 4, 5, 126, 6⟩).loading_screen ∧
     (startupRecord ⟨1, 2, 3, 4, 5, 126, 6⟩).welcome_label
       = (startupRecord ⟨1, 2, 3, 4, 5, 126, 6⟩).welcome_label ∧
     (startupRecord ⟨1, 2, 3, 4, 5, 126, 6⟩).time_screen
       = (startupRecord ⟨1, 2, 3, 4, 5, 126, 6⟩).time_screen ∧
     (startupRecord ⟨1, 2, 3, 4, 5, 126, 6⟩).loading_timer
       = (startupRecord ⟨1, 2, 3, 4, 5, 126, 6⟩).loading_timer ∧
     (startupRecord ⟨1, 2, 3, 4, 5, 126, 6⟩).clock_timer
       = (startupRecord ⟨1, 2, 3, 4, 5, 126, 6⟩).clock_timer ∧
     update_time_display ⟨1, 2, 3, 4, 5, 126, 6⟩
         (startupRecord ⟨1, 2, 3, 4, 5, 126, 6⟩)
       = some (startupRecord ⟨1, 2, 3, 4, 5, 126, 6⟩)) :=
  ⟨by rfl,
   C9_refresh_frame_effect ⟨1, 2, 3, 4, 5, 126, 6⟩
     (startupRecord ⟨1, 2, 3, 4, 5, 126, 6⟩)
     (startupRecord ⟨1, 2, 3, 4, 5, 126, 6⟩) (by rfl)⟩

/-- All four handles the timer callbacks dereference are non-NULL. -/
def handlesSet (st : AppState) : Prop :=
  st.loading_screen.isSome = true ∧ st.time_screen.isSome = true ∧
  st.time_label.isSome = true ∧ st.date_label.isSome = true

theorem reachable_handlesSet (st : AppState) (hr : Reachable st) :
    handlesSet st := by
  induction hr with
  | init now st h =>
      have := Option.some.inj ((startupState_eq now).symm.trans h)
      subst this
      exact ⟨rfl, rfl, rfl, rfl⟩
  | splash st st' _ hcb ih =>
      obtain ⟨ls, ts, _, _, hst'⟩ := loading_timer_cb_eq st st' hcb
      subst hst'
      exact ⟨rfl, rfl, ih.2.2.1, ih.2.2.2⟩
  | tick now st st' _ hcb ih =>
      obtain ⟨tl, dl, _, _, hst'⟩ := update_time_display_eq now st st' hcb
      subst hst'
      exact ⟨ih.1, ih.2.1, rfl, rfl⟩

/-- Claim C10: Callback null-safety: once startup has completed, the four
handles the timer callbacks dereference (loading_screen, time_screen,
time_label, date_label) are non-NULL immediately and stay non-NULL across
every callback, so in this Option embedding the none branch of
loading_timer_cb, clock_update_cb and update_time_display is unreachable:
each returns some state on every reachable input. -/
theorem C10_callback_null_safety :
    (∀ now st, startupState now = some st → handlesSet st) ∧
    (∀ st, Reachable st →
       (loading_timer_cb st).isSome = true ∧
       ∀ now, (update_time_display now st).isSome = true ∧
              (clock_update_cb now st).isSome = true) := by
  constructor
  · intro now st h
    exact reachable_handlesSet st (Reachable.init now st h)
  · intro st hr
    obtain ⟨h1, h2, h3, h4⟩ := reachable_handlesSet st hr
    obtain ⟨ls, hls⟩ := Option.isSome_iff_exists.mp h1
    obtain ⟨ts, hts⟩ := Option.isSome_iff_exists.mp h2
    obtain ⟨tl, htl⟩ := Option.isSome_iff_exists.mp h3
    obtain ⟨dl, hdl⟩ := Option.isSome_iff_exists.mp h4
    constructor
    · unfold loading_timer_cb
      rw [hls, hts]
      rfl
    · intro now
      have hupd : (update_time_display now st).isSome = true := by
        unfold update_time_display
        rw [htl, hdl]
        rfl
      exact ⟨hupd, hupd⟩

theorem C10_callback_null_safety_witness :
    startupState ⟨2, 3, 4, 5, 6, 126, 0⟩
        = some (startupRecord ⟨2, 3, 4, 5, 6, 126, 0⟩) ∧
    handlesSet (startupRecord ⟨2, 3, 4, 5, 6, 126, 0⟩) ∧
    (loading_timer_cb (startupRecord ⟨2, 3, 4, 5, 6, 126, 0⟩)).isSome = true ∧
    (update_time_display ⟨2, 3, 4, 5, 6, 126, 0⟩
        (startupRecord ⟨2, 3, 4, 5, 6, 126, 0⟩)).isSome = true :=
  ⟨by rfl,
   C10_callback_null_safety.1 ⟨2, 3, 4, 5, 6, 126, 0⟩ _ (by rfl),
   (C10_callback_null_safety.2 _
      (Reachable.init ⟨2, 3, 4, 5, 6, 126, 0⟩ _ (by rfl))).1,
   ((C10_callback_null_safety.2 _
      (Reachable.init ⟨2, 3, 4, 5, 6, 126, 0⟩ _ (by rfl))).2
      ⟨2, 3, 4, 5, 6, 126, 0⟩).1⟩

/-! ## One-shot semantics of the splash timer -/

/-- Modelled from the spec: the LVGL timer scheduler (lv_timer.c, not
under src/).  A live timer fires when the time elapsed since its last run
reaches its period; a positive repeat count is decremented on each firing
and the timer is deleted (becomes inert) when the count reaches zero; a
repeat count of −1 repeats forever. -/
structure TimerState where
  period : Nat
  repeatCount : Int
  lastRun : Nat
  alive : Bool
  deriving DecidableEq

/-- One `lv_timer_handler` evaluation of a timer at time `now`: the new
timer state, and whether the callback fired. -/
def timerStep (now : Nat) (t : TimerState) : TimerState × Bool :=
  if t.alive ∧ t.period ≤ now - t.lastRun then
    let rc := if 0 < t.repeatCount then t.repeatCount - 1 else t.repeatCount
    ({ t with lastRun := now, repeatCount := rc, alive := rc != 0 }, true)
  else (t, false)

/-- The times at which a timer fires over a sequence of handler
invocation times. -/
def runTimer (t : TimerState) : List Nat → List Nat
  | [] => []
  | now :: rest =>
      let s := timerStep now t
      if s.2 then now :: runTimer s.1 rest else runTimer s.1 rest

/-- The splash timer as configured by `create_loading_screen` (main.c
lines 59-60), created at program start (time 0). -/
def splashTimer0 : TimerState :=
  { period := (lv_timer_set_repeat_count (lv_timer_create 4000) 1).period,
    repeatCount := (lv_timer_set_repeat_count (lv_timer_create 4000) 1).repeatCount,
    lastRun := 0, alive := true }

theorem runTimer_dead (times : List Nat) (t : TimerState) (h : t.alive = false) :
    runTimer t times = [] := by
  induction times generalizing t with
  | nil => rfl
  | cons now rest ih =>
      have hstep : timerStep now t = (t, false) := by
        unfold timerStep
        rw [if_neg]
        intro hc
        rw [h] at hc
        exact absurd hc.1 (by simp)
      rw [runTimer]
      simp only [hstep]
      exact ih t h

theorem splashTimer0_eq :
    splashTimer0 = { period := 4000, repeatCount := 1, lastRun := 0, alive := true } :=
  rfl

theorem timerStep_splash_fire (now : Nat) (h : 4000 ≤ now) :
    timerStep now splashTimer0 =
      ({ period := 4000, repeatCount := 0, lastRun := now, alive := false }, true) := by
  rw [splashTimer0_eq]
  unfold timerStep
  dsimp only
  rw [if_pos ⟨rfl, by omega⟩]
  rfl

theorem timerStep_splash_early (now : Nat) (h : now < 4000) :
    timerStep now splashTimer0 = (splashTimer0, false) := by
  rw [splashTimer0_eq]
  unfold timerStep
  dsimp only
  rw [if_neg]
  intro hc
  omega

theorem runTimer_splash (times : List Nat) :
    (∀ u ∈ runTimer splashTimer0 times, 4000 ≤ u) ∧
    (runTimer splashTimer0 times).length ≤ 1 ∧
    ((∃ u ∈ times, 4000 ≤ u) → (runTimer splashTimer0 times).length = 1) := by
  induction times with
  | nil => exact ⟨by simp [runTimer], by simp [runTimer], by simp⟩
  | cons now rest ih =>
      by_cases h : 4000 ≤ now
      · have hrun : runTimer splashTimer0 (now :: rest) = [now] := by
          rw [runTimer]
          simp only [timerStep_splash_fire now h]
          rw [runTimer_dead rest _ rfl]
          simp
        rw [hrun]
        refine ⟨?_, by simp, fun _ => by simp⟩
        intro u hu
        rw [List.mem_singleton] at hu
        subst hu
        exact h
      · have hrun : runTimer splashTimer0 (now :: rest)
            = runTimer splashTimer0 rest := by
          rw [runTimer]
          simp only [timerStep_splash_early now (by omega)]
          simp
        rw [hrun]
        refine ⟨ih.1, ih.2.1, ?_⟩
        rintro ⟨u, hu, hge⟩
        rcases List.mem_cons.mp hu with rfl | hu'
        · omega
        · exact ih.2.2 ⟨u, hu', hge⟩

/-- Claim C2: One-shot monotone transition: the splash timer is created
with period 4000 ms and repeat count 1; under the scheduler it never fires
before elapsed time 4000 ms, fires at the first handler invocation at time
≥ 4000 ms and becomes inert in that very step, and over any sequence of
handler invocations it fires at most once — exactly once as soon as some
invocation happens at time ≥ 4000 ms. -/
theorem C2_one_shot_transition :
    (∀ now st, startupState now = some st →
       st.loading_timer = some { period := 4000, repeatCount := 1 }) ∧
    (∀ now : Nat, now < 4000 → timerStep now splashTimer0 = (splashTimer0, false)) ∧
    (∀ now : Nat, 4000 ≤ now → timerStep now splashTimer0 =
       ({ period := 4000, repeatCount := 0, lastRun := now, alive := false }, true)) ∧
    (∀ times : List Nat,
       (∀ u ∈ runTimer splashTimer0 times, 4000 ≤ u) ∧
       (runTimer splashTimer0 times).length ≤ 1 ∧
       ((∃ u ∈ times, 4000 ≤ u) → (runTimer splashTimer0 times).length = 1)) := by
  refine ⟨?_, timerStep_splash_early, timerStep_splash_fire, runTimer_splash⟩
  intro now st h
  have := Option.some.inj ((startupState_eq now).symm.trans h)
  subst this
  rfl

theorem C2_one_shot_transition_witness :
    (startupState ⟨0, 0, 0, 1, 0, 126, 1⟩
        = some (startupRecord ⟨0, 0, 0, 1, 0, 126, 1⟩) ∧
     3999 < 4000 ∧ 4000 ≤ 4000 ∧
     (∃ u ∈ [1000, 3999, 4000, 5000], 4000 ≤ u)) ∧
    ((startupRecord ⟨0, 0, 0, 1, 0, 126, 1⟩).loading_timer
        = some { period := 4000, repeatCount := 1 } ∧
     timerStep 3999 splashTimer0 = (splashTimer0, false) ∧
     timerStep 4000 splashTimer0 =
       ({ period := 4000, repeatCount := 0, lastRun := 4000, alive := false }, true) ∧
     (runTimer splashTimer0 [1000, 3999, 4000, 5000]).length = 1) :=
  ⟨⟨by rfl, by decide, by decide, by decide⟩,
   C2_one_shot_transition.1 ⟨0, 0, 0, 1, 0, 126, 1⟩ _ (by rfl),
   C2_one_shot_transition.2.1 3999 (by decide),
   C2_one_shot_transition.2.2.1 4000 (by decide),
   (C2_one_shot_transition.2.2.2 [1000, 3999, 4000, 5000]).2.2 (by decide)⟩

/-! ## The input adapter -/

/-- `lv_indev_state_t` values used by the adapter. -/
inductive IndevState where
  | pressed
  | released
  deriving DecidableEq

/-- The fields of `lv_indev_data_t` the adapter writes. -/
structure IndevData where
  point_x : Int
  point_y : Int
  state : IndevState
  deriving DecidableEq

/-- `SDL_BUTTON_LMASK`: bit 0 of the mouse-state bitmask. -/
def SDL_BUTTON_LMASK : Nat := 1

/-- `sdl_mouse_read` (main.c lines 169-185) applied to the values
`SDL_GetMouseState` reported.  The call
`SDL_RenderGetLogicalSize(renderer, NULL, NULL)` at main.c line 175 reads
the logical size into NULL pointers and discards it, so despite the
comment above it no scaling is applied: the position is passed through
verbatim, and the primary-button bit selects pressed over released. -/
def sdl_mouse_read (mouse_x mouse_y : Int) (mouse_state : Nat) : IndevData :=
  { point_x := mouse_x, point_y := mouse_y,
    state := if mouse_state &&& SDL_BUTTON_LMASK ≠ 0 then IndevState.pressed
             else IndevState.released }

/-- Modelled from SDL documentation (SDL is a system library, not part of
this repository): `SDL_GetMouseState` reports the pointer position in
window coordinates and is unaffected by `SDL_RenderSetLogicalSize`.  The
window is created at twice the logical 172×320 resolution (main.c lines
202-207), so a pointer physically over logical point (lx, ly) is reported
at (2·lx, 2·ly). -/
def physicalMousePos (lx ly : Int) : Int × Int := (2 * lx, 2 * ly)

/-- Claim C5 (refuting evaluation): the adapter maps the button bit
correctly and reports the position verbatim, but for a pointer over
logical point (100, 200) — reported by `SDL_GetMouseState` as the window
position (200, 400) — the coordinates delivered to the toolkit are
(200, 400), not the logical-space (100, 200); the delivered x does not
even lie inside the 172-wide logical coordinate space.  The claim that
delivered coordinates correspond to the 172×320 logical space fails. -/
theorem C5_input_coordinates_not_logical :
    (sdl_mouse_read 10 20 1).state = IndevState.pressed ∧
    (sdl_mouse_read 10 20 4).state = IndevState.released ∧
    (sdl_mouse_read (physicalMousePos 100 200).1 (physicalMousePos 100 200).2
        0).point_x = 200 ∧
    (sdl_mouse_read (physicalMousePos 100 200).1 (physicalMousePos 100 200).2
        0).point_y = 400 ∧
    ((sdl_mouse_read (physicalMousePos 100 200).1 (physicalMousePos 100 200).2
        0).point_x,
     (sdl_mouse_read (physicalMousePos 100 200).1 (physicalMousePos 100 200).2
        0).point_y) ≠ ((100 : Int), (200 : Int)) ∧
    ¬ (sdl_mouse_read (physicalMousePos 100 200).1 (physicalMousePos 100 200).2
        0).point_x < 172 := by
  decide

/-! ## Startup and its failure handling -/

/-- The observable platform actions of `main` before the event loop. -/
inductive InitAction where
  | printLine : String → InitAction
  | sdlInitVideo : InitAction
  | createWindow : Int → Int → InitAction
  | createRenderer : InitAction
  | setLogicalSize : Int → Int → InitAction
  | lvglInit : InitAction
  | registerDisplayDriver : InitAction
  | registerInputDriver : InitAction
  | destroyWindow : InitAction
  | destroyRenderer : InitAction
  | sdlQuit : InitAction
  | buildLoadingScreen : InitAction
  | buildTimeScreen : InitAction
  deriving DecidableEq

/-- Which of the three fallible platform calls fail in a given run. -/
structure SdlEnv where
  initFails : Bool
  windowFails : Bool
  rendererFails : Bool
  deriving DecidableEq

/-- The startup portion of `main` (main.c lines 190-257) as a trace of
actions plus an early exit status: banner, `SDL_Init`, window at 2× scale,
renderer, logical size, LVGL setup, the two screens.  On each failure it
prints a diagnostic, destroys exactly what exists so far, and exits 1.
The diagnostic strings stand for the `printf`s with `SDL_GetError()`
appended. -/
def mainStartup (env : SdlEnv) : List InitAction × Option Nat :=
  let t0 := [InitAction.printLine "Starting LVGL Watch Application...",
             InitAction.printLine "Target display: 1.47in (172x320)",
             InitAction.sdlInitVideo]
  if env.initFails then
    (t0 ++ [InitAction.printLine "SDL_Init Error"], some 1)
  else
    let t1 := t0 ++ [InitAction.createWindow 344 640]
    if env.windowFails then
      (t1 ++ [InitAction.printLine "SDL_CreateWindow Error", InitAction.sdlQuit],
       some 1)
    else
      let t2 := t1 ++ [InitAction.createRenderer]
      if env.rendererFails then
        (t2 ++ [InitAction.printLine "SDL_CreateRenderer Error",
                InitAction.destroyWindow, InitAction.sdlQuit], some 1)
      else
        (t2 ++ [InitAction.setLogicalSize 172 320, InitAction.lvglInit,
                InitAction.registerDisplayDriver, InitAction.registerInputDriver,
                InitAction.buildLoadingScreen, InitAction.buildTimeScreen,
                InitAction.printLine
                  "Loading screen displayed. Will switch to time in 4 seconds..."],
         none)

/-- Claim C7: Startup failure handling: a failure of the video subsystem,
window creation or renderer creation prints a diagnostic, tears down
exactly the platform resources already created (nothing, the subsystem,
or the window plus subsystem respectively), exits with status 1 without
retrying (each fallible call is attempted at most once), and no screen is
built before any failure point; the exit status is 1 exactly when one of
the three calls fails. -/
theorem C7_startup_failure_handling :
    (∀ b c : Bool, ((mainStartup ⟨true, b, c⟩).1.count
          (InitAction.printLine "SDL_Init Error") = 1 ∧
        (mainStartup ⟨true, b, c⟩).1.count InitAction.sdlQuit = 0 ∧
        (mainStartup ⟨true, b, c⟩).1.count InitAction.destroyWindow = 0 ∧
        (mainStartup ⟨true, b, c⟩).1.count InitAction.destroyRenderer = 0 ∧
        (mainStartup ⟨true, b, c⟩).1.count InitAction.sdlInitVideo = 1 ∧
        InitAction.buildLoadingScreen ∉ (mainStartup ⟨true, b, c⟩).1 ∧
        InitAction.buildTimeScreen ∉ (mainStartup ⟨true, b, c⟩).1 ∧
        (mainStartup ⟨true, b, c⟩).2 = some 1)) ∧
    (∀ c : Bool, ((mainStartup ⟨false, true, c⟩).1.count
          (InitAction.printLine "SDL_CreateWindow Error") = 1 ∧
        (mainStartup ⟨false, true, c⟩).1.count InitAction.sdlQuit = 1 ∧
        (mainStartup ⟨false, true, c⟩).1.count InitAction.destroyWindow = 0 ∧
        (mainStartup ⟨false, true, c⟩).1.count InitAction.destroyRenderer = 0 ∧
        (mainStartup ⟨false, true, c⟩).1.count (InitAction.createWindow 344 640) = 1 ∧
        InitAction.buildLoadingScreen ∉ (mainStartup ⟨false, true, c⟩).1 ∧
        InitAction.buildTimeScreen ∉ (mainStartup ⟨false, true, c⟩).1 ∧
        (mainStartup ⟨false, true, c⟩).2 = some 1)) ∧
    ((mainStartup ⟨false, false, true⟩).1.count
        (InitAction.printLine "SDL_CreateRenderer Error") = 1 ∧
     (mainStartup ⟨false, false, true⟩).1.count InitAction.destroyWindow = 1 ∧
     (mainStartup ⟨false, false, true⟩).1.count InitAction.sdlQuit = 1 ∧
     (mainStartup ⟨false, false, true⟩).1.count InitAction.destroyRenderer = 0 ∧
     (mainStartup ⟨false, false, true⟩).1.count InitAction.createRenderer = 1 ∧
     InitAction.buildLoadingScreen ∉ (mainStartup ⟨false, false, true⟩).1 ∧
     InitAction.buildTimeScreen ∉ (mainStartup ⟨false, false, true⟩).1 ∧
     (mainStartup ⟨false, false, true⟩).2 = some 1) ∧
    (∀ a b c : Bool, ((mainStartup ⟨a, b, c⟩).2 = some 1 ↔ (a || b || c) = true)) := by
  refine ⟨?_, ?_, by decide, ?_⟩
  · intro b c
    cases b <;> cases c <;> decide
  · intro c
    cases c <;> decide
  · intro a b c
    cases a <;> cases b <;> cases c <;> decide

/-! ## The event loop -/

/-- Platform events as the loop classifies them: the close event
(`SDL_QUIT`) or anything else, tagged with its type code. -/
inductive SDLEvent where
  | quitEv : SDLEvent
  | otherEv : Nat → SDLEvent
  deriving DecidableEq

/-- The observable actions of one pass through the loop body and of the
shutdown sequence (main.c lines 263-293). -/
inductive LoopAct where
  | pollDrain : LoopAct
  | setDrawColor : Nat → Nat → Nat → Nat → LoopAct
  | renderClear : LoopAct
  | timerHandler : LoopAct
  | present : LoopAct
  | delayMs : Nat → LoopAct
  | destroyRenderer : LoopAct
  | destroyWindow : LoopAct
  | sdlQuit : LoopAct
  | printLine : String → LoopAct
  deriving DecidableEq

/-- The `while (SDL_PollEvent(&event))` drain (main.c lines 265-269): a
close event sets the quit flag; every other event leaves the state
untouched. -/
def drainEvents (quit : Bool) : List SDLEvent → Bool
  | [] => quit
  | e :: rest => drainEvents (if e = SDLEvent.quitEv then true else quit) rest

/-- Whether a batch of pending events contains the close event. -/
def hasQuit (evs : List SDLEvent) : Bool :=
  evs.any fun e => e = SDLEvent.quitEv

/-- The fixed action sequence of one loop iteration (main.c lines
263-283): drain events, clear to opaque black, run the LVGL handler,
present, sleep 5 ms. -/
def iterTrace : List LoopAct :=
  [LoopAct.pollDrain, LoopAct.setDrawColor 0 0 0 255, LoopAct.renderClear,
   LoopAct.timerHandler, LoopAct.present, LoopAct.delayMs 5]

/-- The shutdown sequence after the loop (main.c lines 286-292). -/
def cleanupTrace : List LoopAct :=
  [LoopAct.destroyRenderer, LoopAct.destroyWindow, LoopAct.sdlQuit,
   LoopAct.printLine "Application closed."]

/-- The event loop over a list of per-iteration pending-event batches:
`none` when the supplied batches are exhausted with the quit flag still
clear (the loop is still running), otherwise the action trace together
with the process exit status. -/
def runLoop (batches : List (List SDLEvent)) (quit : Bool) :
    Option (List LoopAct × Nat) :=
  if quit then some (cleanupTrace, 0)
  else
    match batches with
    | [] => none
    | evs :: rest =>
        match runLoop rest (drainEvents false evs) with
        | some (tr, code) => some (iterTrace ++ tr, code)
        | none => none

theorem runLoop_quit (batches : List (List SDLEvent)) :
    runLoop batches true = some (cleanupTrace, 0) := by
  unfold runLoop
  rw [if_pos rfl]

theorem drainEvents_eq (evs : List SDLEvent) : ∀ q : Bool,
    drainEvents q evs = (q || hasQuit evs) := by
  induction evs with
  | nil => intro q; simp [drainEvents, hasQuit]
  | cons e rest ih =>
      intro q
      rw [drainEvents, ih]
      cases e with
      | quitEv => simp [hasQuit]
      | otherEv n => simp [hasQuit]

theorem runLoop_none_iff (batches : List (List SDLEvent)) :
    runLoop batches false = none ↔ ∀ evs ∈ batches, hasQuit evs = false := by
  induction batches with
  | nil => simp [runLoop]
  | cons evs rest ih =>
      unfold runLoop
      rw [if_neg (by simp)]
      dsimp only
      rw [drainEvents_eq evs false]
      simp only [Bool.false_or]
      cases hq : hasQuit evs with
      | true =>
          rw [runLoop_quit rest]
          constructor
          · intro h; exact absurd h (by simp)
          · intro hall; exact absurd (hall evs (by simp)) (by simp [hq])
      | false =>
          cases hr : runLoop rest false with
          | some v =>
              obtain ⟨tr, code⟩ := v
              simp only [hr]
              constructor
              · intro h; exact absurd h (by simp)
              · intro hall
                have hnone : runLoop rest false = none :=
                  ih.mpr (fun b hb => hall b (List.mem_cons_of_mem _ hb))
                rw [hnone] at hr
                cases hr
          | none =>
              simp only [hr]
              constructor
              · intro _ b hb
                rcases List.mem_cons.mp hb with rfl | hb2
                · exact hq
                · exact (ih.mp hr) b hb2
              · intro _; trivial

theorem runLoop_first_quit : ∀ (k : Nat) (batches : List (List SDLEvent))
    (evs : List SDLEvent),
    (∀ b ∈ batches.take k, hasQuit b = false) →
    batches.get? k = some evs → hasQuit evs = true →
    runLoop batches false
      = some ((List.replicate (k + 1) iterTrace).flatten ++ cleanupTrace, 0) := by
  intro k
  induction k with
  | zero =>
      intro batches evs _ hget hq
      cases batches with
      | nil => simp at hget
      | cons b0 rest =>
          have hb0 : b0 = evs := by simpa using hget
          subst hb0
          unfold runLoop
          rw [if_neg (by simp)]
          dsimp only
          rw [drainEvents_eq b0 false]
          simp only [Bool.false_or, hq]
          rw [runLoop_quit rest]
          simp [List.replicate_succ]
  | succ k ih =>
      intro batches evs htake hget hq
      cases batches with
      | nil => simp at hget
      | cons b0 rest =>
          have hb0 : hasQuit b0 = false := htake b0 (by simp)
          have htake2 : ∀ b ∈ rest.take k, hasQuit b = false := by
            intro b hb
            exact htake b (by simp [hb])
          have hget2 : rest.get? k = some evs := by simpa using hget
          unfold runLoop
          rw [if_neg (by simp)]
          dsimp only
          rw [drainEvents_eq b0 false]
          simp only [Bool.false_or, hb0]
          rw [ih rest evs htake2 hget2 hq]
          simp [List.replicate_succ]

/-- Claim C8: Event-loop order and termination: draining turns the quit
flag on exactly when a close event is pending and leaves it untouched
otherwise (all other events are discarded); each iteration is the fixed
ordered sequence drain, clear-to-black, LVGL handler, present, 5 ms
sleep; the loop keeps running precisely while no close event has
arrived; and on the first batch containing a close event it finishes that
whole iteration, then releases the renderer and the window, quits SDL,
and returns exit status 0. -/
theorem C8_event_loop_order_and_termination :
    (∀ q : Bool, ∀ evs : List SDLEvent, drainEvents q evs = (q || hasQuit evs)) ∧
    (∀ batches : List (List SDLEvent),
       (runLoop batches false = none ↔ ∀ evs ∈ batches, hasQuit evs = false)) ∧
    (∀ (k : Nat) (batches : List (List SDLEvent)) (evs : List SDLEvent),
       (∀ b ∈ batches.take k, hasQuit b = false) →
       batches.get? k = some evs → hasQuit evs = true →
       runLoop batches false
         = some ((List.replicate (k + 1) iterTrace).flatten ++ cleanupTrace, 0)) :=
  ⟨fun q evs => drainEvents_eq evs q, runLoop_none_iff, runLoop_first_quit⟩

theorem C8_event_loop_order_and_termination_witness :
    ((∀ b ∈ ([[SDLEvent.otherEv 2], [SDLEvent.quitEv]] :
        List (List SDLEvent)).take 1, hasQuit b = false) ∧
     ([[SDLEvent.otherEv 2], [SDLEvent.quitEv]] :
        List (List SDLEvent)).get? 1 = some [SDLEvent.quitEv] ∧
     hasQuit [SDLEvent.quitEv] = true) ∧
    runLoop [[SDLEvent.otherEv 2], [SDLEvent.quitEv]] false
      = some ((List.replicate 2 iterTrace).flatten ++ cleanupTrace, 0) :=
  ⟨⟨by decide, by decide, by decide⟩,
   C8_event_loop_order_and_termination.2.2 1
     [[SDLEvent.otherEv 2], [SDLEvent.quitEv]] [SDLEvent.quitEv]
     (by decide) (by decide) (by decide)⟩

end LvglWatch
